import Mathlib

/-!
Verification of the passforge password-encoding library (Go) against its
natural-language specification.

The development shallowly embeds the envelope-format and dispatch layer of
the library:

* Go strings are modelled as `List Char` (`Str`); all characters the library
  manipulates for routing and formatting are ASCII, so byte-level and
  rune-level views coincide on everything the proofs touch.
* Byte slices (salts, derived hashes) are `List Nat` together with a
  validity predicate `ValidBytes` (every entry below 256).
* The external KDF primitives (pbkdf2.Key, argon2.IDKey, scrypt.Key,
  bcrypt) and the random salt source are out of scope per the spec; they
  appear as explicit function parameters and explicitly supplied salts,
  with correctness assumptions stated as hypotheses where a claim needs
  them ("assuming the ... primitive does not fail").
* Go's `(T, error)` results are `Except PFError T`; a `fmt.Errorf` value is
  `PFError.fmtError msg` (distinct from the exported sentinel errors
  `ErrInvalidFormat` / `ErrUnknownEncoding`, mirroring the fact that a
  fresh `fmt.Errorf` error is never identical to a sentinel variable).
-/

/-- Go strings, viewed as their character sequence. -/
abbrev Str := List Char

/-- Coerce a Lean string literal to the `Str` model. -/
def str (s : String) : Str := s.toList

/-- Byte slices (`[]byte`). -/
abbrev Bytes := List Nat

/-- Every entry of the byte slice is an actual byte value. -/
def ValidBytes (b : Bytes) : Prop := ∀ x ∈ b, x < 256

instance (b : Bytes) : Decidable (ValidBytes b) :=
  inferInstanceAs (Decidable (∀ x ∈ b, x < 256))

/-- Error model. `errInvalidFormat` and `errUnknownEncoding` are the two
exported sentinel variables from the source (`ErrInvalidFormat`,
`ErrUnknownEncoding`); `fmtError msg` is a fresh error built by
`fmt.Errorf` (never equal to a sentinel); `primErr` tags an error coming
out of an external primitive. -/
inductive PFError where
  | errInvalidFormat
  | errUnknownEncoding
  | fmtError (msg : Str)
  | primErr (tag : Str)
deriving DecidableEq

/-! ## Base64 (encoding/base64, StdEncoding: standard alphabet, padding) -/

/-- The standard base64 alphabet. -/
def b64Alphabet : Str := str "ABCDEFGHIJKLMNOPQRSTUVWXYZabcdefghijklmnopqrstuvwxyz0123456789+/"

/-- Character for a 6-bit group. -/
def b64Char (n : Nat) : Char := b64Alphabet.getD n 'A'

/-- Inverse lookup: the 6-bit value of an alphabet character. -/
def b64Val (c : Char) : Option Nat := b64Alphabet.indexOf? c

/-- `base64.StdEncoding.EncodeToString`: 3-byte groups to 4 characters,
with `=` padding for a 1- or 2-byte tail. -/
def base64Encode : Bytes → Str
  | [] => []
  | [b0] => [b64Char (b0 / 4), b64Char (b0 % 4 * 16), '=', '=']
  | [b0, b1] => [b64Char (b0 / 4), b64Char (b0 % 4 * 16 + b1 / 16),
                 b64Char (b1 % 16 * 4), '=']
  | b0 :: b1 :: b2 :: rest =>
      b64Char (b0 / 4) :: b64Char (b0 % 4 * 16 + b1 / 16) ::
      b64Char (b1 % 16 * 4 + b2 / 64) :: b64Char (b2 % 64) ::
      base64Encode rest

/-- `base64.StdEncoding.DecodeString`: strict 4-character blocks, padding
only allowed in the final block (Go rejects interior padding and
non-alphabet characters with `CorruptInputError`). -/
def base64Decode : Str → Option Bytes
  | [] => some []
  | c0 :: c1 :: c2 :: c3 :: rest =>
      (b64Val c0).bind fun v0 =>
      (b64Val c1).bind fun v1 =>
      if c2 = '=' then
        if c3 = '=' ∧ rest = [] then some [v0 * 4 + v1 / 16] else none
      else
        (b64Val c2).bind fun v2 =>
        if c3 = '=' then
          if rest = [] then some [v0 * 4 + v1 / 16, v1 % 16 * 16 + v2 / 4]
          else none
        else
          (b64Val c3).bind fun v3 =>
          (base64Decode rest).bind fun bs =>
          some ((v0 * 4 + v1 / 16) :: (v1 % 16 * 16 + v2 / 4) ::
                (v2 % 4 * 64 + v3) :: bs)
  | _ => none

theorem b64Val_b64Char : ∀ n < 64, b64Val (b64Char n) = some n := by decide

theorem b64Alphabet_length : b64Alphabet.length = 64 := by decide

theorem b64Char_ne_eq (n : Nat) : b64Char n ≠ '=' := by
  by_cases h : n < 64
  · revert n h
    decide
  · unfold b64Char
    rw [List.getD_eq_default]
    · decide
    · rw [b64Alphabet_length]
      omega

theorem b64Char_ne_dollar (n : Nat) : b64Char n ≠ '$' := by
  by_cases h : n < 64
  · revert n h
    decide
  · unfold b64Char
    rw [List.getD_eq_default]
    · decide
    · rw [b64Alphabet_length]
      omega

theorem base64Encode_no_dollar : ∀ b : Bytes, ∀ c ∈ base64Encode b, c ≠ '$'
  | [] => by simp [base64Encode]
  | [b0] => by
      simp only [base64Encode, List.mem_cons, List.not_mem_nil, or_false]
      rintro c (rfl | rfl | rfl | rfl) <;>
        first
          | exact b64Char_ne_dollar _
          | decide
  | [b0, b1] => by
      simp only [base64Encode, List.mem_cons, List.not_mem_nil, or_false]
      rintro c (rfl | rfl | rfl | rfl) <;>
        first
          | exact b64Char_ne_dollar _
          | decide
  | b0 :: b1 :: b2 :: rest => by
      simp only [base64Encode, List.mem_cons]
      rintro c (rfl | rfl | rfl | rfl | hc)
      · exact b64Char_ne_dollar _
      · exact b64Char_ne_dollar _
      · exact b64Char_ne_dollar _
      · exact b64Char_ne_dollar _
      · exact base64Encode_no_dollar rest c hc

/-- Decoding an encoded byte slice recovers it (the bytes must be real
bytes for the 6-bit groups to stay in the alphabet's range). -/
theorem base64_roundtrip : ∀ b : Bytes, ValidBytes b → base64Decode (base64Encode b) = some b
  | [], _ => rfl
  | [b0], hv => by
      have h0 : b0 < 256 := hv b0 (by simp)
      simp only [base64Encode, base64Decode]
      rw [b64Val_b64Char (b0 / 4) (by omega), b64Val_b64Char (b0 % 4 * 16) (by omega)]
      simp only [Option.some_bind]
      simp
      omega
  | [b0, b1], hv => by
      have h0 : b0 < 256 := hv b0 (by simp)
      have h1 : b1 < 256 := hv b1 (by simp)
      simp only [base64Encode, base64Decode]
      rw [b64Val_b64Char (b0 / 4) (by omega),
          b64Val_b64Char (b0 % 4 * 16 + b1 / 16) (by omega)]
      simp only [Option.some_bind]
      rw [if_neg (b64Char_ne_eq _)]
      rw [b64Val_b64Char (b1 % 16 * 4) (by omega)]
      simp only [Option.some_bind]
      simp
      constructor
      · omega
      · omega
  | b0 :: b1 :: b2 :: rest, hv => by
      have h0 : b0 < 256 := hv b0 (by simp)
      have h1 : b1 < 256 := hv b1 (by simp)
      have h2 : b2 < 256 := hv b2 (by simp)
      have hrest : ValidBytes rest := fun x hx => hv x (by simp [hx])
      have ih := base64_roundtrip rest hrest
      simp only [base64Encode, base64Decode]
      rw [b64Val_b64Char (b0 / 4) (by omega),
          b64Val_b64Char (b0 % 4 * 16 + b1 / 16) (by omega)]
      simp only [Option.some_bind]
      rw [if_neg (b64Char_ne_eq _)]
      rw [b64Val_b64Char (b1 % 16 * 4 + b2 / 64) (by omega)]
      simp only [Option.some_bind]
      rw [if_neg (b64Char_ne_eq _)]
      rw [b64Val_b64Char (b2 % 64) (by omega), ih]
      simp only [Option.some_bind]
      have e0 : b0 / 4 * 4 + (b0 % 4 * 16 + b1 / 16) / 16 = b0 := by omega
      have e1 : (b0 % 4 * 16 + b1 / 16) % 16 * 16 + (b1 % 16 * 4 + b2 / 64) / 4 = b1 := by
        omega
      have e2 : (b1 % 16 * 4 + b2 / 64) % 4 * 64 + b2 % 64 = b2 := by omega
      rw [e0, e1, e2]

/-! ## Decimal formatting (`fmt.Sprintf` `%d`) and scanning (`fmt.Sscanf`)

The parameter blocks are produced with `fmt.Sprintf` and consumed with
`fmt.Sscanf`.  `natToStr` is the decimal printer (the numeric parameters of
the encoders are sizes and counts, modelled as `Nat`); `parseNatNum` is the
`%d` verb (a maximal run of decimal digits), `expectLit` matches a literal
piece of the format string, and `takeNonSpace` is the `%s` verb (a maximal
run of non-whitespace characters).  The model agrees with `Sscanf` on the
whitespace-free inputs this library produces and consumes. -/

/-- Character for a decimal digit value. -/
def digitCh (d : Nat) : Char := Char.ofNat (48 + d)

/-- Fuel-driven decimal printer body. -/
def natToStrF : Nat → Nat → Str
  | 0, _ => []
  | fuel + 1, n =>
      if n < 10 then [digitCh n]
      else natToStrF fuel (n / 10) ++ [digitCh (n % 10)]

/-- Decimal representation of `n` (what `%d` prints for a non-negative value). -/
def natToStr (n : Nat) : Str := natToStrF (n + 1) n

/-- Decimal digit test (`'0' ≤ c ≤ '9'`). -/
def isDigitC (c : Char) : Bool := 48 ≤ c.toNat && c.toNat ≤ 57

/-- Maximal run of decimal digits and the remainder. -/
def takeDigits : Str → (Str × Str)
  | [] => ([], [])
  | c :: t =>
      if isDigitC c then
        let (a, b) := takeDigits t
        (c :: a, b)
      else ([], c :: t)

/-- Numeric value of a digit run (most significant first). -/
def digitsVal (ds : Str) : Nat := ds.foldl (fun a c => a * 10 + (c.toNat - 48)) 0

/-- The `%d` verb: reads a non-empty maximal digit run, returns its value
and the unread remainder; fails when no digit is present. -/
def parseNatNum (s : Str) : Option (Nat × Str) :=
  match takeDigits s with
  | ([], _) => none
  | (ds, r) => some (digitsVal ds, r)

/-- Matching a literal part of the `Sscanf` format string. -/
def expectLit : Str → Str → Option Str
  | [], s => some s
  | _ :: _, [] => none
  | l :: lt, c :: ct => if c = l then expectLit lt ct else none

/-- Whitespace test used by the `%s` verb. -/
def isSpaceC (c : Char) : Bool := c = ' ' || c = '\t' || c = '\n' || c = '\r'

/-- The `%s` verb: a maximal run of non-whitespace characters. -/
def takeNonSpace : Str → (Str × Str)
  | [] => ([], [])
  | c :: t =>
      if isSpaceC c then ([], c :: t)
      else
        let (a, b) := takeNonSpace t
        (c :: a, b)

theorem digitCh_toNat : ∀ d < 10, (digitCh d).toNat = 48 + d := by decide

theorem isDigitC_digitCh : ∀ d < 10, isDigitC (digitCh d) = true := by decide

theorem natToStrF_digits : ∀ fuel n, ∀ c ∈ natToStrF fuel n, ∃ d, d < 10 ∧ c = digitCh d
  | 0, _ => by simp [natToStrF]
  | fuel + 1, n => by
      simp only [natToStrF]
      split
      · intro c hc
        simp only [List.mem_singleton] at hc
        exact ⟨n, by omega, hc⟩
      · intro c hc
        rw [List.mem_append] at hc
        rcases hc with hc | hc
        · exact natToStrF_digits fuel (n / 10) c hc
        · simp only [List.mem_singleton] at hc
          exact ⟨n % 10, by omega, hc⟩

theorem natToStrF_isDigit (fuel n : Nat) : ∀ c ∈ natToStrF fuel n, isDigitC c = true := by
  intro c hc
  obtain ⟨d, hd, rfl⟩ := natToStrF_digits fuel n c hc
  exact isDigitC_digitCh d hd

theorem natToStrF_extra (fuel1 fuel2 n : Nat) (h1 : n < fuel1) (h2 : n < fuel2) :
    natToStrF fuel1 n = natToStrF fuel2 n := by
  induction n using Nat.strong_induction_on generalizing fuel1 fuel2 with
  | _ n ih =>
    match fuel1, fuel2 with
    | f1 + 1, f2 + 1 =>
        simp only [natToStrF]
        split
        · rfl
        · rw [ih (n / 10) (by omega) f1 f2 (by omega) (by omega)]

theorem digitsVal_append_digit (ds : Str) (c : Char) :
    digitsVal (ds ++ [c]) = digitsVal ds * 10 + (c.toNat - 48) := by
  simp [digitsVal, List.foldl_append]

theorem digitsVal_natToStrF (fuel n : Nat) (h : n < fuel) :
    digitsVal (natToStrF fuel n) = n := by
  induction n using Nat.strong_induction_on generalizing fuel with
  | _ n ih =>
    match fuel with
    | f + 1 =>
        simp only [natToStrF]
        split
        · simp only [digitsVal, List.foldl]
          rw [digitCh_toNat n (by omega)]
          omega
        · rw [digitsVal_append_digit]
          rw [natToStrF_extra f (n / 10 + 1) (n / 10) (by omega) (by omega)]
          rw [ih (n / 10) (by omega) (n / 10 + 1) (by omega)]
          rw [digitCh_toNat (n % 10) (by omega)]
          omega

theorem natToStr_ne_nil (n : Nat) : natToStr n ≠ [] := by
  unfold natToStr natToStrF
  split
  · simp
  · simp

theorem takeDigits_append (ds r : Str) (hds : ∀ c ∈ ds, isDigitC c = true)
    (hr : ∀ c, r.head? = some c → isDigitC c = false) :
    takeDigits (ds ++ r) = (ds, r) := by
  induction ds with
  | nil =>
      simp only [List.nil_append]
      match r with
      | [] => rfl
      | c :: t =>
          simp only [takeDigits]
          rw [if_neg]
          simp only [List.head?] at hr
          rw [hr c rfl]
          simp
  | cons c t ih =>
      simp only [List.cons_append, takeDigits]
      rw [if_pos (hds c (by simp))]
      simp only [List.append_eq]
      rw [ih (fun x hx => hds x (by simp [hx]))]

/-- `%d` roundtrip: scanning the printed decimal of `n` followed by a
non-digit remainder recovers `n` and leaves the remainder unread. -/
theorem parseNatNum_natToStr (n : Nat) (r : Str)
    (hr : ∀ c, r.head? = some c → isDigitC c = false) :
    parseNatNum (natToStr n ++ r) = some (n, r) := by
  unfold parseNatNum
  rw [takeDigits_append (natToStr n) r (natToStrF_isDigit (n + 1) n) hr]
  have hne := natToStr_ne_nil n
  match h : natToStr n with
  | [] => exact absurd h hne
  | c :: cs =>
      simp only []
      rw [← h]
      unfold natToStr
      rw [digitsVal_natToStrF (n + 1) n (by omega)]

theorem expectLit_append (l r : Str) : expectLit l (l ++ r) = some r := by
  induction l with
  | nil => rfl
  | cons c t ih => simp [expectLit, ih]

theorem takeNonSpace_all (s : Str) (h : ∀ c ∈ s, isSpaceC c = false) :
    takeNonSpace s = (s, []) := by
  induction s with
  | nil => rfl
  | cons c t ih =>
      simp only [takeNonSpace]
      rw [h c (by simp)]
      simp only [Bool.false_eq_true, if_false]
      rw [ih (fun x hx => h x (by simp [hx]))]

/-! ## Splitting helpers (`strings.Split` on `"$"`, `strings.Index` of `"}"`) -/

/-- `strings.Split(s, "$")`: always at least one segment; an empty input
yields one empty segment, like Go. -/
def splitDollar : Str → List Str
  | [] => [[]]
  | c :: rest =>
      match splitDollar rest with
      | [] => [[]]
      | h :: t => if c = '$' then [] :: h :: t else (c :: h) :: t

theorem splitDollar_ne_nil (s : Str) : splitDollar s ≠ [] := by
  match s with
  | [] => simp [splitDollar]
  | c :: rest =>
      simp only [splitDollar]
      split
      · simp
      · split <;> simp

theorem splitDollar_no_dollar (a : Str) (h : ∀ c ∈ a, c ≠ '$') : splitDollar a = [a] := by
  induction a with
  | nil => rfl
  | cons c t ih =>
      simp only [splitDollar]
      rw [ih (fun x hx => h x (by simp [hx]))]
      dsimp only
      rw [if_neg (h c (by simp))]

theorem splitDollar_append (a s : Str) (h : ∀ c ∈ a, c ≠ '$') :
    splitDollar (a ++ '$' :: s) = a :: splitDollar s := by
  induction a with
  | nil =>
      simp only [List.nil_append, splitDollar]
      rcases hs : splitDollar s with _ | ⟨x, xs⟩
      · exact absurd hs (splitDollar_ne_nil s)
      · simp
  | cons c t ih =>
      simp only [List.cons_append, splitDollar, List.append_eq]
      rw [ih (fun x hx => h x (by simp [hx]))]
      dsimp only
      rw [if_neg (h c (by simp))]

/-- Segment of `s` before the first `'}'` together with the part after it
(`strings.Index` plus the two slices in `extractIDAndHash`). -/
def splitAtBrace : Str → Option (Str × Str)
  | [] => none
  | c :: t =>
      if c = '}' then some ([], t)
      else (splitAtBrace t).map fun p => (c :: p.1, p.2)

theorem splitAtBrace_of_not_mem (t : Str) (h : '}' ∉ t) : splitAtBrace t = none := by
  induction t with
  | nil => rfl
  | cons c r ih =>
      simp only [splitAtBrace]
      rw [if_neg (by simp at h; exact fun hc => h.1 hc.symm)]
      rw [ih (by simp at h; exact h.2)]
      rfl

theorem splitAtBrace_append (pre rest : Str) (h : '}' ∉ pre) :
    splitAtBrace (pre ++ '}' :: rest) = some (pre, rest) := by
  induction pre with
  | nil => simp [splitAtBrace]
  | cons c t ih =>
      simp only [List.cons_append, splitAtBrace, List.append_eq]
      rw [if_neg (by simp at h; exact fun hc => h.1 hc.symm)]
      rw [ih (by simp at h; exact h.2)]
      rfl

/-! ## Hash-function values and the constant-time comparison -/

/-- Model of a Go `func() hash.Hash` value: the library only ever
distinguishes `sha256.New` from everything else. -/
inductive HashFn where
  | sha256New
  | other (tag : Str)
deriving DecidableEq

/-- `subtle.ConstantTimeCompare` returns 1 exactly when the two slices
have equal length and equal contents, 0 otherwise. -/
def constantTimeCompare (a b : Bytes) : Nat := if a = b then 1 else 0

/-! ## PBKDF2 scheme (`pbkdf2.go`)

`pbkdf2.Key` is the external primitive; it appears as an explicit function
argument of type `PBKDF2Key`.  `Encode`'s random salt (`rand.Read` into a
`SaltLen`-byte buffer) is passed in explicitly; a failing random source
returns its error before any formatting happens, so the success path is
what the function below models. -/

abbrev PBKDF2Key := Str → Bytes → Nat → Nat → HashFn → Bytes

structure PBKDF2PasswordEncoder where
  Iterations : Nat
  KeyLen : Nat
  SaltLen : Nat
  HashFunc : HashFn
  HashFuncName : Str

/-- `NewPBKDF2PasswordEncoder`: zero values fall back to the documented
defaults; the hash-function name is always recorded as `"sha256"` and a
nil hash function falls back to `sha256.New`. -/
def NewPBKDF2PasswordEncoder (iterations keyLen saltLen : Nat)
    (hashFunc : Option HashFn) : PBKDF2PasswordEncoder :=
  { Iterations := if iterations = 0 then 10000 else iterations
    KeyLen := if keyLen = 0 then 32 else keyLen
    SaltLen := if saltLen = 0 then 16 else saltLen
    HashFunc := hashFunc.getD .sha256New
    HashFuncName := str "sha256" }

/-- The `fmt.Sprintf("iterations=%d,keyLen=%d,hashFunc=%s", ...)` block. -/
def pbkdf2Params (p : PBKDF2PasswordEncoder) : Str :=
  str "iterations=" ++ natToStr p.Iterations ++ str ",keyLen=" ++
  natToStr p.KeyLen ++ str ",hashFunc=" ++ p.HashFuncName

def pbkdf2Encode (key : PBKDF2Key) (p : PBKDF2PasswordEncoder)
    (salt : Bytes) (rawPassword : Str) : Str :=
  let hash := key rawPassword salt p.Iterations p.KeyLen p.HashFunc
  pbkdf2Params p ++ '$' :: base64Encode salt ++ '$' :: base64Encode hash

/-- The `fmt.Sscanf(parts[0], "iterations=%d,keyLen=%d,hashFunc=%s", ...)`
call of `Verify`. -/
def parsePBKDF2Params (s : Str) : Option (Nat × Nat × Str) :=
  match expectLit (str "iterations=") s with
  | none => none
  | some s1 =>
      match parseNatNum s1 with
      | none => none
      | some (iterations, s2) =>
          match expectLit (str ",keyLen=") s2 with
          | none => none
          | some s3 =>
              match parseNatNum s3 with
              | none => none
              | some (keyLen, s4) =>
                  match expectLit (str ",hashFunc=") s4 with
                  | none => none
                  | some s5 =>
                      match takeNonSpace s5 with
                      | ([], _) => none
                      | (name, _) => some (iterations, keyLen, name)

/-- `PBKDF2PasswordEncoder.Verify`.  The receiver `p` is unused by the
source method: every parameter is recovered from the envelope itself.
The `fmt.Errorf` messages keep their static prefix (the `%v` payload is
immaterial: no claim inspects it, only whether the value is a sentinel). -/
def pbkdf2Verify (key : PBKDF2Key) (p : PBKDF2PasswordEncoder)
    (rawPassword encodedPassword : Str) : Except PFError Bool :=
  match splitDollar encodedPassword with
  | [params, saltPart, hashPart] =>
      match parsePBKDF2Params params with
      | none => .error (.fmtError (str "invalid parameter format"))
      | some (iterations, keyLen, hashFuncName) =>
          if hashFuncName = str "sha256" then
            match base64Decode saltPart with
            | none => .error (.fmtError (str "invalid salt encoding"))
            | some salt =>
                match base64Decode hashPart with
                | none => .error (.fmtError (str "invalid hash encoding"))
                | some storedHash =>
                    let computedHash := key rawPassword salt iterations keyLen .sha256New
                    .ok (constantTimeCompare storedHash computedHash == 1)
          else .error (.fmtError (str "unsupported hash function: " ++ hashFuncName))
  | _ => .error (.fmtError (str "invalid encoded password format"))

def pbkdf2Name : Str := str "pbkdf2"

/-! ## Argon2id scheme (`argon2.go`)

`argon2.IDKey` is the external primitive (`Argon2Key` argument).  The
`uint32`/`uint8` parameters are modelled as `Nat`: `Encode` prints the
stored value and `Verify` re-reads the same decimal, so the machine width
never influences the properties proved here. -/

abbrev Argon2Key := Str → Bytes → Nat → Nat → Nat → Nat → Bytes

structure Argon2PasswordEncoder where
  Time : Nat
  Memory : Nat
  Threads : Nat
  KeyLen : Nat
  SaltLen : Nat

/-- `NewArgon2PasswordEncoder()` with no options: the documented defaults. -/
def NewArgon2PasswordEncoder : Argon2PasswordEncoder :=
  { Time := 1, Memory := 64 * 1024, Threads := 4, KeyLen := 32, SaltLen := 16 }

def WithArgon2Time (time : Nat) (a : Argon2PasswordEncoder) : Argon2PasswordEncoder :=
  { a with Time := time }

def WithArgon2Memory (memory : Nat) (a : Argon2PasswordEncoder) : Argon2PasswordEncoder :=
  { a with Memory := memory }

def WithArgon2Threads (threads : Nat) (a : Argon2PasswordEncoder) : Argon2PasswordEncoder :=
  { a with Threads := threads }

def WithArgon2KeyLen (keyLen : Nat) (a : Argon2PasswordEncoder) : Argon2PasswordEncoder :=
  { a with KeyLen := keyLen }

def WithArgon2SaltLen (saltLen : Nat) (a : Argon2PasswordEncoder) : Argon2PasswordEncoder :=
  { a with SaltLen := saltLen }

/-- The `fmt.Sprintf("time=%d,memory=%d,threads=%d,keyLen=%d", ...)` block. -/
def argon2Params (a : Argon2PasswordEncoder) : Str :=
  str "time=" ++ natToStr a.Time ++ str ",memory=" ++ natToStr a.Memory ++
  str ",threads=" ++ natToStr a.Threads ++ str ",keyLen=" ++ natToStr a.KeyLen

def argon2Encode (idKey : Argon2Key) (a : Argon2PasswordEncoder)
    (salt : Bytes) (rawPassword : Str) : Str :=
  let hash := idKey rawPassword salt a.Time a.Memory a.Threads a.KeyLen
  argon2Params a ++ '$' :: base64Encode salt ++ '$' :: base64Encode hash

/-- The `fmt.Sscanf(parts[0], "time=%d,memory=%d,threads=%d,keyLen=%d", ...)`
call of `Verify` (trailing unread input is not an error for `Sscanf`). -/
def parseArgon2Params (s : Str) : Option (Nat × Nat × Nat × Nat) :=
  match expectLit (str "time=") s with
  | none => none
  | some s1 =>
      match parseNatNum s1 with
      | none => none
      | some (time, s2) =>
          match expectLit (str ",memory=") s2 with
          | none => none
          | some s3 =>
              match parseNatNum s3 with
              | none => none
              | some (memory, s4) =>
                  match expectLit (str ",threads=") s4 with
                  | none => none
                  | some s5 =>
                      match parseNatNum s5 with
                      | none => none
                      | some (threads, s6) =>
                          match expectLit (str ",keyLen=") s6 with
                          | none => none
                          | some s7 =>
                              match parseNatNum s7 with
                              | none => none
                              | some (keyLen, _) => some (time, memory, threads, keyLen)

/-- `Argon2PasswordEncoder.Verify`; the receiver `a` is unused by the
source method. -/
def argon2Verify (idKey : Argon2Key) (a : Argon2PasswordEncoder)
    (rawPassword encodedPassword : Str) : Except PFError Bool :=
  match splitDollar encodedPassword with
  | [params, saltPart, hashPart] =>
      match parseArgon2Params params with
      | none => .error (.fmtError (str "invalid parameter format"))
      | some (time, memory, threads, keyLen) =>
          match base64Decode saltPart with
          | none => .error (.fmtError (str "invalid salt encoding"))
          | some salt =>
              match base64Decode hashPart with
              | none => .error (.fmtError (str "invalid hash encoding"))
              | some storedHash =>
                  let computedHash := idKey rawPassword salt time memory threads keyLen
                  .ok (constantTimeCompare storedHash computedHash == 1)
  | _ => .error (.fmtError (str "invalid encoded password format"))

def argon2Name : Str := str "argon2"

/-! ## scrypt scheme (`scrypt.go`)

`scrypt.Key` is the external primitive; unlike the other two KDFs it can
itself fail (out-of-range cost parameters), so its model returns
`Except`. -/

abbrev ScryptKey := Str → Bytes → Nat → Nat → Nat → Nat → Except PFError Bytes

structure ScryptPasswordEncoder where
  N : Nat
  R : Nat
  P : Nat
  KeyLen : Nat
  SaltLen : Nat

/-- `NewScryptPasswordEncoder()` with no options: the documented defaults. -/
def NewScryptPasswordEncoder : ScryptPasswordEncoder :=
  { N := 16384, R := 8, P := 1, KeyLen := 32, SaltLen := 16 }

def WithScryptN (n : Nat) (s : ScryptPasswordEncoder) : ScryptPasswordEncoder :=
  { s with N := n }

def WithScryptR (r : Nat) (s : ScryptPasswordEncoder) : ScryptPasswordEncoder :=
  { s with R := r }

def WithScryptP (p : Nat) (s : ScryptPasswordEncoder) : ScryptPasswordEncoder :=
  { s with P := p }

def WithScryptKeyLen (keyLen : Nat) (s : ScryptPasswordEncoder) : ScryptPasswordEncoder :=
  { s with KeyLen := keyLen }

def WithScryptSaltLen (saltLen : Nat) (s : ScryptPasswordEncoder) : ScryptPasswordEncoder :=
  { s with SaltLen := saltLen }

/-- The `fmt.Sprintf("N=%d,r=%d,p=%d,keyLen=%d", ...)` block. -/
def scryptParams (s : ScryptPasswordEncoder) : Str :=
  str "N=" ++ natToStr s.N ++ str ",r=" ++ natToStr s.R ++
  str ",p=" ++ natToStr s.P ++ str ",keyLen=" ++ natToStr s.KeyLen

def scryptEncode (key : ScryptKey) (s : ScryptPasswordEncoder)
    (salt : Bytes) (rawPassword : Str) : Except PFError Str :=
  match key rawPassword salt s.N s.R s.P s.KeyLen with
  | .error e => .error e
  | .ok hash =>
      .ok (scryptParams s ++ '$' :: base64Encode salt ++ '$' :: base64Encode hash)

/-- The `fmt.Sscanf(parts[0], "N=%d,r=%d,p=%d,keyLen=%d", ...)` call of
`Verify`. -/
def parseScryptParams (s : Str) : Option (Nat × Nat × Nat × Nat) :=
  match expectLit (str "N=") s with
  | none => none
  | some s1 =>
      match parseNatNum s1 with
      | none => none
      | some (n, s2) =>
          match expectLit (str ",r=") s2 with
          | none => none
          | some s3 =>
              match parseNatNum s3 with
              | none => none
              | some (r, s4) =>
                  match expectLit (str ",p=") s4 with
                  | none => none
                  | some s5 =>
                      match parseNatNum s5 with
                      | none => none
                      | some (p, s6) =>
                          match expectLit (str ",keyLen=") s6 with
                          | none => none
                          | some s7 =>
                              match parseNatNum s7 with
                              | none => none
                              | some (keyLen, _) => some (n, r, p, keyLen)

/-- `ScryptPasswordEncoder.Verify`; the receiver `s` is unused by the
source method. -/
def scryptVerify (key : ScryptKey) (s : ScryptPasswordEncoder)
    (rawPassword encodedPassword : Str) : Except PFError Bool :=
  match splitDollar encodedPassword with
  | [params, saltPart, hashPart] =>
      match parseScryptParams params with
      | none => .error (.fmtError (str "invalid parameter format"))
      | some (n, r, p, keyLen) =>
          match base64Decode saltPart with
          | none => .error (.fmtError (str "invalid salt encoding"))
          | some salt =>
              match base64Decode hashPart with
              | none => .error (.fmtError (str "invalid hash encoding"))
              | some storedHash =>
                  match key rawPassword salt n r p keyLen with
                  | .error e => .error e
                  | .ok computedHash =>
                      .ok (constantTimeCompare storedHash computedHash == 1)
  | _ => .error (.fmtError (str "invalid encoded password format"))

def scryptName : Str := str "scrypt"

/-! ## NoOp scheme (`noop.go`) -/

def noopEncode (rawPassword : Str) : Except PFError Str := .ok rawPassword

def noopVerify (rawPassword encodedPassword : Str) : Except PFError Bool :=
  .ok (rawPassword == encodedPassword)

/-! ## bcrypt scheme (`bcrypt.go`)

The whole envelope format belongs to the external bcrypt primitive.
`generateFromPassword` models `bcrypt.GenerateFromPassword` at a cost;
`BcryptCmp` models the outcome of `bcrypt.CompareHashAndPassword`
(`nil` / `ErrMismatchedHashAndPassword` / any other error). -/

inductive BcryptCmp where
  | success
  | mismatch
  | failure (e : PFError)

structure BcryptPasswordEncoder where
  Cost : Nat

def NewBcryptPasswordEncoder : BcryptPasswordEncoder := { Cost := 10 }

def WithCost (cost : Nat) (b : BcryptPasswordEncoder) : BcryptPasswordEncoder :=
  { b with Cost := cost }

def bcryptEncode (generateFromPassword : Nat → Str → Except PFError Str)
    (b : BcryptPasswordEncoder) (rawPassword : Str) : Except PFError Str :=
  match generateFromPassword b.Cost rawPassword with
  | .error e => .error e
  | .ok hashed => .ok hashed

/-- `BcryptPasswordEncoder.Verify`: the primitive's mismatch signal
becomes the boolean `false`, any other primitive error propagates. -/
def bcryptVerify (compareHashAndPassword : Str → Str → BcryptCmp)
    (b : BcryptPasswordEncoder) (rawPassword encodedPassword : Str) :
    Except PFError Bool :=
  match compareHashAndPassword encodedPassword rawPassword with
  | .failure e => .error e
  | .mismatch => .ok false
  | .success => .ok true

def bcryptName : Str := str "bcrypt"

/-! ## Delegating dispatcher (`delegating.go`)

`PasswordEncoder` is the capability contract (the Go interface): one
encode/verify/name triple.  The registry (a Go `map[string]PasswordEncoder`)
is modelled as a lookup function; `buildEncoderMap` performs the sequential
map inserts of the constructor, so a later encoder with the same name
overwrites an earlier one, exactly like repeated Go map assignment. -/

structure PasswordEncoder where
  encode : Str → Except PFError Str
  verify : Str → Str → Except PFError Bool
  name : Str

structure DelegatingPasswordEncoder where
  DefaultEncoder : PasswordEncoder
  DefaultEncoderID : Str
  Encoders : Str → Option PasswordEncoder

/-- `buildEncoderMap`: the registry resulting from inserting each encoder
under its `Name()` in order. -/
def buildEncoderMap : List PasswordEncoder → Str → Option PasswordEncoder
  | [], _ => none
  | e :: rest, k =>
      match buildEncoderMap rest k with
      | some found => some found
      | none => if k = e.name then some e else none

/-- `NewDelegatingPasswordEncoder` (the variadic constructor with
validation). -/
def NewDelegatingPasswordEncoder (defaultEncoderID : Str)
    (encoders : List PasswordEncoder) : Except PFError DelegatingPasswordEncoder :=
  if defaultEncoderID = [] then
    .error (.fmtError (str "default encoder ID cannot be empty"))
  else if encoders.isEmpty then
    .error (.fmtError (str "at least one encoder must be provided"))
  else
    match buildEncoderMap encoders defaultEncoderID with
    | none =>
        .error (.fmtError (str "default encoder '" ++ defaultEncoderID ++
          str "' not found in provided encoders"))
    | some defaultEncoder =>
        .ok { DefaultEncoderID := defaultEncoderID
              DefaultEncoder := defaultEncoder
              Encoders := buildEncoderMap encoders }

/-- `getDefaultID`: reads the explicitly stored field (no registry scan). -/
def DelegatingPasswordEncoder.getDefaultID (d : DelegatingPasswordEncoder) : Str :=
  d.DefaultEncoderID

def DelegatingPasswordEncoder.Encode (d : DelegatingPasswordEncoder)
    (rawPassword : Str) : Except PFError Str :=
  match d.DefaultEncoder.encode rawPassword with
  | .error e => .error e
  | .ok encoded => .ok ('{' :: d.getDefaultID ++ '}' :: encoded)

/-- `extractIDAndHash`: a leading `'{'`, the identifier up to the first
`'}'`, and everything after it. -/
def extractIDAndHash (encodedPassword : Str) : Except PFError (Str × Str) :=
  match encodedPassword with
  | [] => .error .errInvalidFormat
  | c :: rest =>
      if c = '{' then
        match splitAtBrace rest with
        | none => .error .errInvalidFormat
        | some p => .ok p
      else .error .errInvalidFormat

def DelegatingPasswordEncoder.Verify (d : DelegatingPasswordEncoder)
    (rawPassword encodedPassword : Str) : Except PFError Bool :=
  match extractIDAndHash encodedPassword with
  | .error e => .error e
  | .ok (id, realEncoded) =>
      match d.Encoders id with
      | none => .error .errUnknownEncoding
      | some encoder => encoder.verify rawPassword realEncoded

theorem buildEncoderMap_eq_none_iff (l : List PasswordEncoder) (k : Str) :
    buildEncoderMap l k = none ↔ k ∉ l.map (fun e => e.name) := by
  induction l with
  | nil => simp [buildEncoderMap]
  | cons e rest ih =>
      simp only [buildEncoderMap, List.map_cons, List.mem_cons]
      rcases h : buildEncoderMap rest k with _ | found
      · rw [h] at ih
        simp only [true_iff] at ih
        by_cases hk : k = e.name
        · rw [if_pos hk]
          simp [hk]
        · rw [if_neg hk]
          simp [hk, ih]
      · rw [h] at ih
        have hkmem : k ∈ rest.map (fun e => e.name) := by
          by_contra hkn
          exact absurd (ih.mpr hkn) (by simp)
        simp [hkmem]

theorem buildEncoderMap_name_self (l : List PasswordEncoder)
    (hnodup : (l.map (fun e => e.name)).Nodup) :
    ∀ e ∈ l, buildEncoderMap l e.name = some e := by
  induction l with
  | nil => simp
  | cons e0 rest ih =>
      intro e he
      simp only [List.mem_cons] at he
      simp only [buildEncoderMap]
      simp only [List.map_cons, List.nodup_cons] at hnodup
      rcases he with rfl | he
      · have hnone : buildEncoderMap rest e.name = none :=
          (buildEncoderMap_eq_none_iff rest e.name).mpr hnodup.1
        rw [hnone]
        dsimp only
        rw [if_pos rfl]
      · rw [ih hnodup.2 e he]

theorem extractIDAndHash_ok (pre rest : Str) (h : '}' ∉ pre) :
    extractIDAndHash ('{' :: pre ++ '}' :: rest) = .ok (pre, rest) := by
  have hsh : ('{' :: pre) ++ ('}' :: rest) = '{' :: (pre ++ '}' :: rest) := by simp
  rw [hsh]
  simp only [extractIDAndHash, if_true]
  rw [splitAtBrace_append pre rest h]

theorem extractIDAndHash_invalid (s : Str)
    (h : s.head? ≠ some '{' ∨ '}' ∉ s) : extractIDAndHash s = .error .errInvalidFormat := by
  match s with
  | [] => rfl
  | c :: rest =>
      simp only [extractIDAndHash]
      by_cases hc : c = '{'
      · rw [if_pos hc]
        rcases h with h | h
        · exact absurd (by rw [hc]; rfl) h
        · subst hc
          have hmem : '}' ∉ rest := by
            intro hr
            exact h (by simp [hr])
          rw [splitAtBrace_of_not_mem rest hmem]
      · rw [if_neg hc]

/-! ## Envelope lemmas shared by the claims -/

theorem no_dollar_append {a b : Str} (ha : ∀ c ∈ a, c ≠ '$') (hb : ∀ c ∈ b, c ≠ '$') :
    ∀ c ∈ a ++ b, c ≠ '$' := by
  intro c hc
  rw [List.mem_append] at hc
  rcases hc with h | h
  · exact ha c h
  · exact hb c h

theorem natToStr_no_dollar (n : Nat) : ∀ c ∈ natToStr n, c ≠ '$' := by
  intro c hc
  obtain ⟨d, hd, rfl⟩ := natToStrF_digits (n + 1) n c hc
  exact (by decide : ∀ d < 10, digitCh d ≠ '$') d hd

/-- An envelope `P$S$H` with dollar-free segments splits into exactly those
three segments. -/
theorem splitDollar_envelope (P S H : Str)
    (hP : ∀ c ∈ P, c ≠ '$') (hS : ∀ c ∈ S, c ≠ '$') (hH : ∀ c ∈ H, c ≠ '$') :
    splitDollar (P ++ '$' :: S ++ '$' :: H) = [P, S, H] := by
  have hsh : (P ++ '$' :: S) ++ '$' :: H = P ++ '$' :: (S ++ '$' :: H) := by
    simp [List.append_assoc]
  rw [hsh]
  rw [splitDollar_append P (S ++ '$' :: H) hP]
  rw [splitDollar_append S H hS]
  rw [splitDollar_no_dollar H hH]

theorem head_fixed_not_digit {r : Str} {c0 : Char} (h0 : r.head? = some c0)
    (hd : isDigitC c0 = false) : ∀ c, r.head? = some c → isDigitC c = false := by
  intro c hc
  rw [h0] at hc
  injection hc with h
  rw [← h]
  exact hd

theorem parseNatNum_natToStr_nil (n : Nat) : parseNatNum (natToStr n) = some (n, []) := by
  have h := parseNatNum_natToStr n [] (by intro c hc; simp at hc)
  rw [List.append_nil] at h
  exact h

theorem pbkdf2Params_no_dollar (p : PBKDF2PasswordEncoder)
    (hn : ∀ c ∈ p.HashFuncName, c ≠ '$') : ∀ c ∈ pbkdf2Params p, c ≠ '$' := by
  unfold pbkdf2Params
  exact no_dollar_append (no_dollar_append (no_dollar_append (no_dollar_append
    (no_dollar_append (by decide) (natToStr_no_dollar _)) (by decide))
    (natToStr_no_dollar _)) (by decide)) hn

theorem argon2Params_no_dollar (a : Argon2PasswordEncoder) :
    ∀ c ∈ argon2Params a, c ≠ '$' := by
  unfold argon2Params
  exact no_dollar_append (no_dollar_append (no_dollar_append (no_dollar_append
    (no_dollar_append (no_dollar_append (no_dollar_append (by decide)
    (natToStr_no_dollar _)) (by decide)) (natToStr_no_dollar _)) (by decide))
    (natToStr_no_dollar _)) (by decide)) (natToStr_no_dollar _)

theorem scryptParams_no_dollar (s : ScryptPasswordEncoder) :
    ∀ c ∈ scryptParams s, c ≠ '$' := by
  unfold scryptParams
  exact no_dollar_append (no_dollar_append (no_dollar_append (no_dollar_append
    (no_dollar_append (no_dollar_append (no_dollar_append (by decide)
    (natToStr_no_dollar _)) (by decide)) (natToStr_no_dollar _)) (by decide))
    (natToStr_no_dollar _)) (by decide)) (natToStr_no_dollar _)

theorem parsePBKDF2Params_roundtrip (it kl : Nat) :
    parsePBKDF2Params (str "iterations=" ++ (natToStr it ++ (str ",keyLen=" ++
      (natToStr kl ++ (str ",hashFunc=" ++ str "sha256"))))) =
    some (it, kl, str "sha256") := by
  unfold parsePBKDF2Params
  rw [expectLit_append]
  dsimp only
  rw [parseNatNum_natToStr it (str ",keyLen=" ++ (natToStr kl ++
      (str ",hashFunc=" ++ str "sha256"))) (head_fixed_not_digit rfl (by decide))]
  dsimp only
  rw [expectLit_append]
  dsimp only
  rw [parseNatNum_natToStr kl (str ",hashFunc=" ++ str "sha256")
      (head_fixed_not_digit rfl (by decide))]
  dsimp only
  rw [expectLit_append]
  dsimp only
  rw [takeNonSpace_all (str "sha256") (by decide)]
  rfl

theorem parseArgon2Params_roundtrip (t m th k : Nat) :
    parseArgon2Params (str "time=" ++ (natToStr t ++ (str ",memory=" ++
      (natToStr m ++ (str ",threads=" ++ (natToStr th ++ (str ",keyLen=" ++
      natToStr k))))))) = some (t, m, th, k) := by
  unfold parseArgon2Params
  rw [expectLit_append]
  dsimp only
  rw [parseNatNum_natToStr t (str ",memory=" ++ (natToStr m ++ (str ",threads=" ++
      (natToStr th ++ (str ",keyLen=" ++ natToStr k)))))
      (head_fixed_not_digit rfl (by decide))]
  dsimp only
  rw [expectLit_append]
  dsimp only
  rw [parseNatNum_natToStr m (str ",threads=" ++ (natToStr th ++ (str ",keyLen=" ++
      natToStr k))) (head_fixed_not_digit rfl (by decide))]
  dsimp only
  rw [expectLit_append]
  dsimp only
  rw [parseNatNum_natToStr th (str ",keyLen=" ++ natToStr k)
      (head_fixed_not_digit rfl (by decide))]
  dsimp only
  rw [expectLit_append]
  dsimp only
  rw [parseNatNum_natToStr_nil k]

theorem parseScryptParams_roundtrip (n r p k : Nat) :
    parseScryptParams (str "N=" ++ (natToStr n ++ (str ",r=" ++
      (natToStr r ++ (str ",p=" ++ (natToStr p ++ (str ",keyLen=" ++
      natToStr k))))))) = some (n, r, p, k) := by
  unfold parseScryptParams
  rw [expectLit_append]
  dsimp only
  rw [parseNatNum_natToStr n (str ",r=" ++ (natToStr r ++ (str ",p=" ++
      (natToStr p ++ (str ",keyLen=" ++ natToStr k)))))
      (head_fixed_not_digit rfl (by decide))]
  dsimp only
  rw [expectLit_append]
  dsimp only
  rw [parseNatNum_natToStr r (str ",p=" ++ (natToStr p ++ (str ",keyLen=" ++
      natToStr k))) (head_fixed_not_digit rfl (by decide))]
  dsimp only
  rw [expectLit_append]
  dsimp only
  rw [parseNatNum_natToStr p (str ",keyLen=" ++ natToStr k)
      (head_fixed_not_digit rfl (by decide))]
  dsimp only
  rw [expectLit_append]
  dsimp only
  rw [parseNatNum_natToStr_nil k]

theorem constantTimeCompare_eq_one (a b : Bytes) :
    (constantTimeCompare a b == 1) = decide (a = b) := by
  unfold constantTimeCompare
  by_cases h : a = b
  · simp [h]
  · simp [h]

/-- Verifying `raw2` against a fresh PBKDF2 envelope of `raw1`: the boolean
outcome is exactly whether the two KDF outputs coincide (the encoder's
hash function must be the `sha256.New` the parameter block names, which is
what the constructor produces). -/
theorem pbkdf2_verify_of_encode (key : PBKDF2Key) (p : PBKDF2PasswordEncoder)
    (salt : Bytes) (raw1 raw2 : Str) (hsalt : ValidBytes salt)
    (hkey : ValidBytes (key raw1 salt p.Iterations p.KeyLen p.HashFunc))
    (hname : p.HashFuncName = str "sha256") (hfn : p.HashFunc = HashFn.sha256New) :
    pbkdf2Verify key p raw2 (pbkdf2Encode key p salt raw1) =
      .ok (decide (key raw1 salt p.Iterations p.KeyLen HashFn.sha256New =
                   key raw2 salt p.Iterations p.KeyLen HashFn.sha256New)) := by
  unfold pbkdf2Encode pbkdf2Verify
  dsimp only
  rw [splitDollar_envelope (pbkdf2Params p) (base64Encode salt)
      (base64Encode (key raw1 salt p.Iterations p.KeyLen p.HashFunc))
      (pbkdf2Params_no_dollar p (by rw [hname]; decide))
      (base64Encode_no_dollar salt) (base64Encode_no_dollar _)]
  dsimp only
  have hparams : pbkdf2Params p =
      str "iterations=" ++ (natToStr p.Iterations ++ (str ",keyLen=" ++
        (natToStr p.KeyLen ++ (str ",hashFunc=" ++ str "sha256")))) := by
    unfold pbkdf2Params
    rw [hname]
    simp [List.append_assoc]
  rw [hparams, parsePBKDF2Params_roundtrip]
  dsimp only
  rw [if_pos rfl]
  rw [base64_roundtrip salt hsalt]
  dsimp only
  rw [base64_roundtrip _ hkey]
  dsimp only
  rw [constantTimeCompare_eq_one, hfn]

/-- Verifying `raw2` against a fresh Argon2 envelope of `raw1`. -/
theorem argon2_verify_of_encode (idKey : Argon2Key) (a : Argon2PasswordEncoder)
    (salt : Bytes) (raw1 raw2 : Str) (hsalt : ValidBytes salt)
    (hkey : ValidBytes (idKey raw1 salt a.Time a.Memory a.Threads a.KeyLen)) :
    argon2Verify idKey a raw2 (argon2Encode idKey a salt raw1) =
      .ok (decide (idKey raw1 salt a.Time a.Memory a.Threads a.KeyLen =
                   idKey raw2 salt a.Time a.Memory a.Threads a.KeyLen)) := by
  unfold argon2Encode argon2Verify
  dsimp only
  rw [splitDollar_envelope (argon2Params a) (base64Encode salt)
      (base64Encode (idKey raw1 salt a.Time a.Memory a.Threads a.KeyLen))
      (argon2Params_no_dollar a)
      (base64Encode_no_dollar salt) (base64Encode_no_dollar _)]
  dsimp only
  have hparams : argon2Params a =
      str "time=" ++ (natToStr a.Time ++ (str ",memory=" ++ (natToStr a.Memory ++
        (str ",threads=" ++ (natToStr a.Threads ++ (str ",keyLen=" ++
        natToStr a.KeyLen)))))) := by
    unfold argon2Params
    simp [List.append_assoc]
  rw [hparams, parseArgon2Params_roundtrip]
  dsimp only
  rw [base64_roundtrip salt hsalt]
  dsimp only
  rw [base64_roundtrip _ hkey]
  dsimp only
  rw [constantTimeCompare_eq_one]

/-- A successful `scrypt.Key` makes `Encode` produce the three-segment
envelope. -/
theorem scryptEncode_ok (key : ScryptKey) (s : ScryptPasswordEncoder)
    (salt : Bytes) (raw : Str) (out : Bytes)
    (h : key raw salt s.N s.R s.P s.KeyLen = .ok out) :
    scryptEncode key s salt raw =
      .ok (scryptParams s ++ '$' :: base64Encode salt ++ '$' :: base64Encode out) := by
  unfold scryptEncode
  rw [h]

/-- Verifying `raw2` against a fresh scrypt envelope of `raw1`, when the
primitive succeeds on both calls. -/
theorem scrypt_verify_of_encode (key : ScryptKey) (s : ScryptPasswordEncoder)
    (salt : Bytes) (raw2 : Str) (out1 out2 : Bytes) (hsalt : ValidBytes salt)
    (hout : ValidBytes out1)
    (h2 : key raw2 salt s.N s.R s.P s.KeyLen = .ok out2) :
    scryptVerify key s raw2
      (scryptParams s ++ '$' :: base64Encode salt ++ '$' :: base64Encode out1) =
      .ok (decide (out1 = out2)) := by
  unfold scryptVerify
  rw [splitDollar_envelope (scryptParams s) (base64Encode salt) (base64Encode out1)
      (scryptParams_no_dollar s)
      (base64Encode_no_dollar salt) (base64Encode_no_dollar _)]
  dsimp only
  have hparams : scryptParams s =
      str "N=" ++ (natToStr s.N ++ (str ",r=" ++ (natToStr s.R ++
        (str ",p=" ++ (natToStr s.P ++ (str ",keyLen=" ++
        natToStr s.KeyLen)))))) := by
    unfold scryptParams
    simp [List.append_assoc]
  rw [hparams, parseScryptParams_roundtrip]
  dsimp only
  rw [base64_roundtrip salt hsalt]
  dsimp only
  rw [base64_roundtrip _ hout]
  dsimp only
  rw [h2]
  dsimp only
  rw [constantTimeCompare_eq_one]

/-! ## Concrete instances used by the witnesses -/

/-- A toy stand-in for `pbkdf2.Key`: depends only on the password length,
always returns one byte. -/
def toyPBKDF2Key : PBKDF2Key := fun raw _ _ _ _ => [raw.length % 256]

def toyArgon2Key : Argon2Key := fun raw _ _ _ _ _ => [raw.length % 256]

def toyScryptKey : ScryptKey := fun raw _ _ _ _ _ => .ok [raw.length % 256]

def toyPBKDF2Cfg : PBKDF2PasswordEncoder :=
  ⟨1000, 32, 16, .sha256New, str "sha256"⟩

/-- A registry entry behaving like the NoOp encoder under a given name. -/
def toyEncoder (nm : Str) : PasswordEncoder :=
  ⟨noopEncode, noopVerify, nm⟩

def toyGen : Nat → Str → Except PFError Str := fun _ _ => .ok (str "HASH")

def toyCmpSuccess : Str → Str → BcryptCmp := fun _ _ => .success

/-! ## The claims -/

/-- C1: for every scheme encoder (bcrypt, scrypt, argon2, pbkdf2, noop) and
every secret `p`, verifying `p` against the envelope just produced by
encoding `p` yields `(true, nil)`, assuming the random salt source and the
KDF primitive do not fail (salt and KDF outputs are genuine byte slices,
scrypt/bcrypt primitives succeed, and the PBKDF2 encoder's hash function
is the `sha256.New` that its parameter block names — which is exactly what
the constructor installs). -/
theorem claim_roundtrip_all_schemes :
    (∀ (key : PBKDF2Key) (p : PBKDF2PasswordEncoder) (salt : Bytes) (raw : Str),
       ValidBytes salt →
       ValidBytes (key raw salt p.Iterations p.KeyLen p.HashFunc) →
       p.HashFuncName = str "sha256" → p.HashFunc = HashFn.sha256New →
       pbkdf2Verify key p raw (pbkdf2Encode key p salt raw) = .ok true) ∧
    (∀ (idKey : Argon2Key) (a : Argon2PasswordEncoder) (salt : Bytes) (raw : Str),
       ValidBytes salt →
       ValidBytes (idKey raw salt a.Time a.Memory a.Threads a.KeyLen) →
       argon2Verify idKey a raw (argon2Encode idKey a salt raw) = .ok true) ∧
    (∀ (key : ScryptKey) (s : ScryptPasswordEncoder) (salt : Bytes) (raw env : Str)
       (out : Bytes),
       ValidBytes salt → ValidBytes out →
       key raw salt s.N s.R s.P s.KeyLen = .ok out →
       scryptEncode key s salt raw = .ok env →
       scryptVerify key s raw env = .ok true) ∧
    (∀ (gen : Nat → Str → Except PFError Str) (cmp : Str → Str → BcryptCmp)
       (b : BcryptPasswordEncoder) (raw env : Str),
       bcryptEncode gen b raw = .ok env →
       cmp env raw = .success →
       bcryptVerify cmp b raw env = .ok true) ∧
    (∀ raw : Str, noopEncode raw = .ok raw ∧ noopVerify raw raw = .ok true) := by
  refine ⟨?_, ?_, ?_, ?_, ?_⟩
  · intro key p salt raw hsalt hkey hname hfn
    rw [pbkdf2_verify_of_encode key p salt raw raw hsalt hkey hname hfn]
    simp
  · intro idKey a salt raw hsalt hkey
    rw [argon2_verify_of_encode idKey a salt raw raw hsalt hkey]
    simp
  · intro key s salt raw env out hsalt hout hk henc
    rw [scryptEncode_ok key s salt raw out hk] at henc
    injection henc with henc
    subst henc
    rw [scrypt_verify_of_encode key s salt raw out out hsalt hout hk]
    simp
  · intro gen cmp b raw env _ hcmp
    unfold bcryptVerify
    rw [hcmp]
  · intro raw
    refine ⟨rfl, ?_⟩
    unfold noopVerify
    simp

theorem claim_roundtrip_all_schemes_witness :
    pbkdf2Verify toyPBKDF2Key toyPBKDF2Cfg (str "pw")
      (pbkdf2Encode toyPBKDF2Key toyPBKDF2Cfg [1, 2] (str "pw")) = .ok true ∧
    argon2Verify toyArgon2Key NewArgon2PasswordEncoder (str "pw")
      (argon2Encode toyArgon2Key NewArgon2PasswordEncoder [3] (str "pw")) = .ok true ∧
    scryptVerify toyScryptKey NewScryptPasswordEncoder (str "pw")
      (scryptParams NewScryptPasswordEncoder ++ '$' :: base64Encode [4] ++
       '$' :: base64Encode [2]) = .ok true ∧
    bcryptVerify toyCmpSuccess NewBcryptPasswordEncoder (str "pw") (str "HASH") = .ok true ∧
    (noopEncode (str "pw") = .ok (str "pw") ∧
     noopVerify (str "pw") (str "pw") = .ok true) := by
  refine ⟨?_, ?_, ?_, ?_, ?_⟩
  · exact claim_roundtrip_all_schemes.1 toyPBKDF2Key toyPBKDF2Cfg [1, 2] (str "pw")
      (by decide) (by decide) rfl rfl
  · exact claim_roundtrip_all_schemes.2.1 toyArgon2Key NewArgon2PasswordEncoder [3]
      (str "pw") (by decide) (by decide)
  · exact claim_roundtrip_all_schemes.2.2.1 toyScryptKey NewScryptPasswordEncoder [4]
      (str "pw") _ [2] (by decide) (by decide) rfl rfl
  · exact claim_roundtrip_all_schemes.2.2.2.1 toyGen toyCmpSuccess
      NewBcryptPasswordEncoder (str "pw") (str "HASH") rfl rfl
  · exact claim_roundtrip_all_schemes.2.2.2.2 (str "pw")

def toyCmpMismatch : Str → Str → BcryptCmp := fun _ _ => .mismatch

def toyCmpFailure : Str → Str → BcryptCmp := fun _ _ => .failure (.primErr (str "boom"))

/-- C3: verifying `p2` against an envelope of `p1 ≠ p2` yields the
non-error mismatch result `(false, nil)` for every scheme.  For the KDF
schemes the claim's ideal-primitive reading appears as the hypothesis
that the KDF outputs for the two distinct passwords differ (a collision
would be a failure of the primitive, which the claim assumes away); for
bcrypt the primitive's mismatch signal becomes `(false, nil)` while any
other primitive error propagates unchanged. -/
theorem claim_negative_match :
    (∀ (key : PBKDF2Key) (p : PBKDF2PasswordEncoder) (salt : Bytes) (p1 p2 : Str),
       ValidBytes salt →
       ValidBytes (key p1 salt p.Iterations p.KeyLen p.HashFunc) →
       p.HashFuncName = str "sha256" → p.HashFunc = HashFn.sha256New →
       key p1 salt p.Iterations p.KeyLen HashFn.sha256New ≠
         key p2 salt p.Iterations p.KeyLen HashFn.sha256New →
       pbkdf2Verify key p p2 (pbkdf2Encode key p salt p1) = .ok false) ∧
    (∀ (idKey : Argon2Key) (a : Argon2PasswordEncoder) (salt : Bytes) (p1 p2 : Str),
       ValidBytes salt →
       ValidBytes (idKey p1 salt a.Time a.Memory a.Threads a.KeyLen) →
       idKey p1 salt a.Time a.Memory a.Threads a.KeyLen ≠
         idKey p2 salt a.Time a.Memory a.Threads a.KeyLen →
       argon2Verify idKey a p2 (argon2Encode idKey a salt p1) = .ok false) ∧
    (∀ (key : ScryptKey) (s : ScryptPasswordEncoder) (salt : Bytes) (p1 p2 env : Str)
       (out1 out2 : Bytes),
       ValidBytes salt → ValidBytes out1 →
       key p1 salt s.N s.R s.P s.KeyLen = .ok out1 →
       key p2 salt s.N s.R s.P s.KeyLen = .ok out2 →
       out1 ≠ out2 →
       scryptEncode key s salt p1 = .ok env →
       scryptVerify key s p2 env = .ok false) ∧
    (∀ p1 p2 : Str, p1 ≠ p2 →
       noopEncode p1 = .ok p1 ∧ noopVerify p2 p1 = .ok false) ∧
    (∀ (cmp : Str → Str → BcryptCmp) (b : BcryptPasswordEncoder) (raw env : Str),
       (cmp env raw = .mismatch → bcryptVerify cmp b raw env = .ok false) ∧
       (∀ e, cmp env raw = .failure e → bcryptVerify cmp b raw env = .error e)) := by
  refine ⟨?_, ?_, ?_, ?_, ?_⟩
  · intro key p salt p1 p2 hsalt hkey hname hfn hne
    rw [pbkdf2_verify_of_encode key p salt p1 p2 hsalt hkey hname hfn]
    rw [decide_eq_false hne]
  · intro idKey a salt p1 p2 hsalt hkey hne
    rw [argon2_verify_of_encode idKey a salt p1 p2 hsalt hkey]
    rw [decide_eq_false hne]
  · intro key s salt p1 p2 env out1 out2 hsalt hout h1 h2 hne henc
    rw [scryptEncode_ok key s salt p1 out1 h1] at henc
    injection henc with henc
    subst henc
    rw [scrypt_verify_of_encode key s salt p2 out1 out2 hsalt hout h2]
    rw [decide_eq_false hne]
  · intro p1 p2 hne
    refine ⟨rfl, ?_⟩
    unfold noopVerify
    rw [beq_eq_false_iff_ne.mpr hne.symm]
  · intro cmp b raw env
    constructor
    · intro h
      unfold bcryptVerify
      rw [h]
    · intro e h
      unfold bcryptVerify
      rw [h]

theorem claim_negative_match_witness :
    pbkdf2Verify toyPBKDF2Key toyPBKDF2Cfg (str "bb")
      (pbkdf2Encode toyPBKDF2Key toyPBKDF2Cfg [1, 2] (str "a")) = .ok false ∧
    argon2Verify toyArgon2Key NewArgon2PasswordEncoder (str "bb")
      (argon2Encode toyArgon2Key NewArgon2PasswordEncoder [3] (str "a")) = .ok false ∧
    scryptVerify toyScryptKey NewScryptPasswordEncoder (str "bb")
      (scryptParams NewScryptPasswordEncoder ++ '$' :: base64Encode [4] ++
       '$' :: base64Encode [1]) = .ok false ∧
    (noopEncode (str "a") = .ok (str "a") ∧ noopVerify (str "b") (str "a") = .ok false) ∧
    (bcryptVerify toyCmpMismatch NewBcryptPasswordEncoder (str "pw") (str "H") = .ok false ∧
     bcryptVerify toyCmpFailure NewBcryptPasswordEncoder (str "pw") (str "H") =
       .error (.primErr (str "boom"))) := by
  refine ⟨?_, ?_, ?_, ?_, ?_, ?_⟩
  · exact claim_negative_match.1 toyPBKDF2Key toyPBKDF2Cfg [1, 2] (str "a") (str "bb")
      (by decide) (by decide) rfl rfl (by decide)
  · exact claim_negative_match.2.1 toyArgon2Key NewArgon2PasswordEncoder [3]
      (str "a") (str "bb") (by decide) (by decide) (by decide)
  · exact claim_negative_match.2.2.1 toyScryptKey NewScryptPasswordEncoder [4]
      (str "a") (str "bb") _ [1] [2] (by decide) (by decide) rfl rfl (by decide) rfl
  · exact claim_negative_match.2.2.2.1 (str "a") (str "b") (by decide)
  · exact (claim_negative_match.2.2.2.2 toyCmpMismatch NewBcryptPasswordEncoder
      (str "pw") (str "H")).1 rfl
  · exact (claim_negative_match.2.2.2.2 toyCmpFailure NewBcryptPasswordEncoder
      (str "pw") (str "H")).2 (.primErr (str "boom")) rfl

/-- C9: the NoOp scheme's `Encode` returns the secret unchanged with no
error for every secret, and its `Verify` is plain string equality with no
error, including the spec's three concrete instances. -/
theorem claim_noop_scheme :
    (∀ raw : Str, noopEncode raw = .ok raw) ∧
    (∀ a b : Str, noopVerify a b = .ok (a == b)) ∧
    noopEncode (str "secret") = .ok (str "secret") ∧
    noopVerify (str "secret") (str "secret") = .ok true ∧
    noopVerify (str "a") (str "b") = .ok false := by
  exact ⟨fun _ => rfl, fun _ _ => rfl, rfl, rfl, rfl⟩

/-- C10: for each composite scheme the result of `Verify` depends only on
the raw secret and the envelope, never on the receiver's configured
parameters: everything is recovered from the envelope, so any two
configurations of the same scheme verify identically on all inputs. -/
theorem claim_verify_config_independent :
    (∀ (key : PBKDF2Key) (c1 c2 : PBKDF2PasswordEncoder) (raw env : Str),
       pbkdf2Verify key c1 raw env = pbkdf2Verify key c2 raw env) ∧
    (∀ (idKey : Argon2Key) (c1 c2 : Argon2PasswordEncoder) (raw env : Str),
       argon2Verify idKey c1 raw env = argon2Verify idKey c2 raw env) ∧
    (∀ (key : ScryptKey) (c1 c2 : ScryptPasswordEncoder) (raw env : Str),
       scryptVerify key c1 raw env = scryptVerify key c2 raw env) :=
  ⟨fun _ _ _ _ _ => rfl, fun _ _ _ _ _ => rfl, fun _ _ _ _ _ => rfl⟩

theorem count_dollar_envelope (P S H : Str)
    (hP : ∀ c ∈ P, c ≠ '$') (hS : ∀ c ∈ S, c ≠ '$') (hH : ∀ c ∈ H, c ≠ '$') :
    (P ++ '$' :: S ++ '$' :: H).count '$' = 2 := by
  have hp : P.count '$' = 0 := by
    rw [List.count_eq_zero]
    intro hmem
    exact hP '$' hmem rfl
  have hs : S.count '$' = 0 := by
    rw [List.count_eq_zero]
    intro hmem
    exact hS '$' hmem rfl
  have hh : H.count '$' = 0 := by
    rw [List.count_eq_zero]
    intro hmem
    exact hH '$' hmem rfl
  simp [List.count_append, List.count_cons, hp, hs, hh]

/-- C8: every envelope a composite scheme's `Encode` produces splits on
`'$'` into exactly the three segments parameter-block / base64 salt /
base64 hash, and hence contains exactly two `'$'` characters.  For PBKDF2
the stored hash-function name must be dollar-free, which holds for every
constructor-built encoder (the constructor always records `"sha256"`). -/
theorem claim_envelope_three_segments :
    (∀ (key : PBKDF2Key) (p : PBKDF2PasswordEncoder) (salt : Bytes) (raw : Str),
       (∀ c ∈ p.HashFuncName, c ≠ '$') →
       splitDollar (pbkdf2Encode key p salt raw) =
         [pbkdf2Params p, base64Encode salt,
          base64Encode (key raw salt p.Iterations p.KeyLen p.HashFunc)] ∧
       (pbkdf2Encode key p salt raw).count '$' = 2) ∧
    (∀ (idKey : Argon2Key) (a : Argon2PasswordEncoder) (salt : Bytes) (raw : Str),
       splitDollar (argon2Encode idKey a salt raw) =
         [argon2Params a, base64Encode salt,
          base64Encode (idKey raw salt a.Time a.Memory a.Threads a.KeyLen)] ∧
       (argon2Encode idKey a salt raw).count '$' = 2) ∧
    (∀ (key : ScryptKey) (s : ScryptPasswordEncoder) (salt : Bytes) (raw env : Str),
       scryptEncode key s salt raw = .ok env →
       ∃ out, key raw salt s.N s.R s.P s.KeyLen = .ok out ∧
         splitDollar env = [scryptParams s, base64Encode salt, base64Encode out] ∧
         env.count '$' = 2) := by
  refine ⟨?_, ?_, ?_⟩
  · intro key p salt raw hn
    constructor
    · unfold pbkdf2Encode
      dsimp only
      exact splitDollar_envelope _ _ _ (pbkdf2Params_no_dollar p hn)
        (base64Encode_no_dollar salt) (base64Encode_no_dollar _)
    · unfold pbkdf2Encode
      dsimp only
      exact count_dollar_envelope _ _ _ (pbkdf2Params_no_dollar p hn)
        (base64Encode_no_dollar salt) (base64Encode_no_dollar _)
  · intro idKey a salt raw
    constructor
    · unfold argon2Encode
      dsimp only
      exact splitDollar_envelope _ _ _ (argon2Params_no_dollar a)
        (base64Encode_no_dollar salt) (base64Encode_no_dollar _)
    · unfold argon2Encode
      dsimp only
      exact count_dollar_envelope _ _ _ (argon2Params_no_dollar a)
        (base64Encode_no_dollar salt) (base64Encode_no_dollar _)
  · intro key s salt raw env henc
    unfold scryptEncode at henc
    rcases hk : key raw salt s.N s.R s.P s.KeyLen with e | out
    · rw [hk] at henc
      cases henc
    · rw [hk] at henc
      injection henc with henc
      subst henc
      refine ⟨out, rfl, ?_, ?_⟩
      · exact splitDollar_envelope _ _ _ (scryptParams_no_dollar s)
          (base64Encode_no_dollar salt) (base64Encode_no_dollar _)
      · exact count_dollar_envelope _ _ _ (scryptParams_no_dollar s)
          (base64Encode_no_dollar salt) (base64Encode_no_dollar _)

theorem claim_envelope_three_segments_witness :
    (pbkdf2Encode toyPBKDF2Key toyPBKDF2Cfg [1, 2] (str "pw")).count '$' = 2 ∧
    (argon2Encode toyArgon2Key NewArgon2PasswordEncoder [3] (str "pw")).count '$' = 2 ∧
    ∃ out, toyScryptKey (str "pw") [4] NewScryptPasswordEncoder.N
        NewScryptPasswordEncoder.R NewScryptPasswordEncoder.P
        NewScryptPasswordEncoder.KeyLen = .ok out ∧
      splitDollar (scryptParams NewScryptPasswordEncoder ++ '$' :: base64Encode [4] ++
        '$' :: base64Encode [2]) =
        [scryptParams NewScryptPasswordEncoder, base64Encode [4], base64Encode out] ∧
      (scryptParams NewScryptPasswordEncoder ++ '$' :: base64Encode [4] ++
        '$' :: base64Encode [2]).count '$' = 2 := by
  refine ⟨?_, ?_, ?_⟩
  · exact (claim_envelope_three_segments.1 toyPBKDF2Key toyPBKDF2Cfg [1, 2]
      (str "pw") (by decide)).2
  · exact (claim_envelope_three_segments.2.1 toyArgon2Key NewArgon2PasswordEncoder
      [3] (str "pw")).2
  · exact claim_envelope_three_segments.2.2 toyScryptKey NewScryptPasswordEncoder
      [4] (str "pw") _ rfl

def toyDispatcher : DelegatingPasswordEncoder :=
  ⟨toyEncoder (str "bcrypt"), str "bcrypt",
   fun k => if k = str "bcrypt" then some (toyEncoder (str "bcrypt"))
     else if k = str "noop" then some (toyEncoder (str "noop")) else none⟩

/-- C2: the dispatcher's `Verify` fails with the `ErrInvalidFormat`
sentinel when the envelope does not start with `'{'` (the empty string
included) or contains no `'}'`; with `ErrUnknownEncoding` when the
brace-delimited identifier is not a registry key; and otherwise delegates
to the registered encoder on the text after the first `'}'`, returning its
result unchanged — including the spec's two concrete instances for a
dispatcher over bcrypt and noop. -/
theorem claim_delegating_verify_dispatch :
    (∀ (d : DelegatingPasswordEncoder) (raw env : Str),
       env.head? ≠ some '{' ∨ '}' ∉ env →
       d.Verify raw env = .error .errInvalidFormat) ∧
    (∀ (d : DelegatingPasswordEncoder) (raw pre rest : Str),
       '}' ∉ pre → d.Encoders pre = none →
       d.Verify raw ('{' :: pre ++ '}' :: rest) = .error .errUnknownEncoding) ∧
    (∀ (d : DelegatingPasswordEncoder) (raw pre rest : Str) (enc : PasswordEncoder),
       '}' ∉ pre → d.Encoders pre = some enc →
       d.Verify raw ('{' :: pre ++ '}' :: rest) = enc.verify raw rest) ∧
    (∀ (bc nop : PasswordEncoder) (d : DelegatingPasswordEncoder),
       d.Encoders = (fun k => if k = str "bcrypt" then some bc else
         if k = str "noop" then some nop else none) →
       d.Verify (str "pw") (str "{unknown}xyz") = .error .errUnknownEncoding ∧
       d.Verify (str "pw") (str "noprefix") = .error .errInvalidFormat) := by
  refine ⟨?_, ?_, ?_, ?_⟩
  · intro d raw env h
    unfold DelegatingPasswordEncoder.Verify
    rw [extractIDAndHash_invalid env h]
  · intro d raw pre rest hpre hnone
    unfold DelegatingPasswordEncoder.Verify
    rw [extractIDAndHash_ok pre rest hpre]
    dsimp only
    rw [hnone]
  · intro d raw pre rest enc hpre hsome
    unfold DelegatingPasswordEncoder.Verify
    rw [extractIDAndHash_ok pre rest hpre]
    dsimp only
    rw [hsome]
  · intro bc nop d h
    constructor
    · unfold DelegatingPasswordEncoder.Verify
      rw [show extractIDAndHash (str "{unknown}xyz") =
            .ok (str "unknown", str "xyz") from rfl]
      dsimp only
      rw [h]
      rfl
    · unfold DelegatingPasswordEncoder.Verify
      rw [extractIDAndHash_invalid (str "noprefix") (Or.inl (by decide))]

theorem claim_delegating_verify_dispatch_witness :
    toyDispatcher.Verify (str "pw") (str "noprefix") = .error .errInvalidFormat ∧
    toyDispatcher.Verify (str "pw") ('{' :: str "unknown" ++ '}' :: str "xyz") =
      .error .errUnknownEncoding ∧
    toyDispatcher.Verify (str "pw") ('{' :: str "noop" ++ '}' :: str "pw") =
      (toyEncoder (str "noop")).verify (str "pw") (str "pw") ∧
    (toyDispatcher.Verify (str "pw") (str "{unknown}xyz") = .error .errUnknownEncoding ∧
     toyDispatcher.Verify (str "pw") (str "noprefix") = .error .errInvalidFormat) := by
  refine ⟨?_, ?_, ?_, ?_⟩
  · exact claim_delegating_verify_dispatch.1 toyDispatcher (str "pw") (str "noprefix")
      (Or.inl (by decide))
  · exact claim_delegating_verify_dispatch.2.1 toyDispatcher (str "pw")
      (str "unknown") (str "xyz") (by decide) rfl
  · exact claim_delegating_verify_dispatch.2.2.1 toyDispatcher (str "pw")
      (str "noop") (str "pw") (toyEncoder (str "noop")) (by decide) rfl
  · exact claim_delegating_verify_dispatch.2.2.2 (toyEncoder (str "bcrypt"))
      (toyEncoder (str "noop")) toyDispatcher rfl

def failEncoder : PasswordEncoder :=
  ⟨fun _ => .error (.primErr (str "rng")), noopVerify, str "fail"⟩

/-- C4: when the default encoder's `Encode` succeeds, the dispatcher's
`Encode` returns exactly `"{" ++ defaultID ++ "}" ++ inner`, with the
identifier taken from the explicitly stored `DefaultEncoderID` field — the
result does not depend on the registry at all (no scan for a matching
instance) — and an inner `Encode` error is returned unchanged. -/
theorem claim_delegating_encode_routing :
    (∀ (d : DelegatingPasswordEncoder) (raw inner : Str),
       d.DefaultEncoder.encode raw = .ok inner →
       d.Encode raw = .ok ('{' :: d.DefaultEncoderID ++ '}' :: inner)) ∧
    (∀ (d : DelegatingPasswordEncoder) (raw : Str) (e : PFError),
       d.DefaultEncoder.encode raw = .error e → d.Encode raw = .error e) ∧
    (∀ (de : PasswordEncoder) (id : Str) (E1 E2 : Str → Option PasswordEncoder)
       (raw : Str),
       DelegatingPasswordEncoder.Encode ⟨de, id, E1⟩ raw =
         DelegatingPasswordEncoder.Encode ⟨de, id, E2⟩ raw) := by
  refine ⟨?_, ?_, ?_⟩
  · intro d raw inner h
    unfold DelegatingPasswordEncoder.Encode DelegatingPasswordEncoder.getDefaultID
    rw [h]
  · intro d raw e h
    unfold DelegatingPasswordEncoder.Encode
    rw [h]
  · intro de id E1 E2 raw
    rfl

theorem claim_delegating_encode_routing_witness :
    toyDispatcher.Encode (str "pw") = .ok ('{' :: str "bcrypt" ++ '}' :: str "pw") ∧
    DelegatingPasswordEncoder.Encode ⟨failEncoder, str "fail", fun _ => none⟩
      (str "pw") = .error (.primErr (str "rng")) ∧
    DelegatingPasswordEncoder.Encode ⟨toyEncoder (str "noop"), str "noop",
        fun _ => none⟩ (str "pw") =
      DelegatingPasswordEncoder.Encode ⟨toyEncoder (str "noop"), str "noop",
        toyDispatcher.Encoders⟩ (str "pw") := by
  refine ⟨?_, ?_, ?_⟩
  · exact claim_delegating_encode_routing.1 toyDispatcher (str "pw") (str "pw") rfl
  · exact claim_delegating_encode_routing.2.1
      ⟨failEncoder, str "fail", fun _ => none⟩ (str "pw") (.primErr (str "rng")) rfl
  · exact claim_delegating_encode_routing.2.2 (toyEncoder (str "noop")) (str "noop")
      (fun _ => none) toyDispatcher.Encoders (str "pw")

/-- C5: algorithm agility.  An envelope produced by a dispatcher `d1`
whose default is scheme `S1` under identifier `sid` verifies as
`(true, nil)` under any dispatcher `d2` whose registry maps `sid` to an
encoder `S2` of the same scheme (same verification behaviour), regardless
of `d2`'s own default — given that `S1` round-trips on the secret (which
claim C1 establishes per scheme). -/
theorem claim_cross_scheme_stability
    (S1 S2 : PasswordEncoder) (d1 d2 : DelegatingPasswordEncoder) (p inner : Str)
    (hdef : d1.DefaultEncoder = S1)
    (hid : '}' ∉ d1.DefaultEncoderID)
    (hreg : d2.Encoders d1.DefaultEncoderID = some S2)
    (hsame : ∀ raw env, S2.verify raw env = S1.verify raw env)
    (henc : S1.encode p = .ok inner)
    (hrt : S1.verify p inner = .ok true) :
    ∀ env, d1.Encode p = .ok env → d2.Verify p env = .ok true := by
  intro env he
  unfold DelegatingPasswordEncoder.Encode DelegatingPasswordEncoder.getDefaultID at he
  rw [hdef, henc] at he
  dsimp only at he
  injection he with he
  subst he
  unfold DelegatingPasswordEncoder.Verify
  rw [extractIDAndHash_ok d1.DefaultEncoderID inner hid]
  dsimp only
  rw [hreg]
  dsimp only
  rw [hsame, hrt]

def toyDispatcherNoopDefault : DelegatingPasswordEncoder :=
  ⟨toyEncoder (str "noop"), str "noop",
   fun k => if k = str "noop" then some (toyEncoder (str "noop")) else none⟩

theorem claim_cross_scheme_stability_witness :
    toyDispatcher.Verify (str "pw")
      ('{' :: str "noop" ++ '}' :: str "pw") = .ok true := by
  exact claim_cross_scheme_stability (toyEncoder (str "noop")) (toyEncoder (str "noop"))
    toyDispatcherNoopDefault toyDispatcher (str "pw") (str "pw")
    rfl (by decide) rfl (fun _ _ => rfl) rfl rfl
    ('{' :: str "noop" ++ '}' :: str "pw") rfl

/-- C6: dispatcher construction fails with an error exactly when the
default identifier is empty, no encoders are provided, or the default
identifier is not among the provided encoders' names; otherwise it
succeeds, the registry maps each provided encoder's `Name()` to that
encoder (names pairwise distinct — the spec's "keys unique" invariant;
with a duplicated name, the later insert wins as in a Go map), and the
default identifier is a key bound to the stored default encoder. -/
theorem claim_constructor_validation :
    (∀ encoders : List PasswordEncoder,
       NewDelegatingPasswordEncoder [] encoders =
         .error (.fmtError (str "default encoder ID cannot be empty"))) ∧
    (∀ id : Str, id ≠ [] →
       NewDelegatingPasswordEncoder id [] =
         .error (.fmtError (str "at least one encoder must be provided"))) ∧
    (∀ (id : Str) (encoders : List PasswordEncoder),
       id ≠ [] → encoders ≠ [] → id ∉ encoders.map (fun e => e.name) →
       NewDelegatingPasswordEncoder id encoders =
         .error (.fmtError (str "default encoder '" ++ id ++
           str "' not found in provided encoders"))) ∧
    (∀ (id : Str) (encoders : List PasswordEncoder) (e : PasswordEncoder),
       id ≠ [] → buildEncoderMap encoders id = some e →
       NewDelegatingPasswordEncoder id encoders =
         .ok ⟨e, id, buildEncoderMap encoders⟩) ∧
    (∀ encoders : List PasswordEncoder,
       (encoders.map (fun e => e.name)).Nodup →
       ∀ e ∈ encoders, buildEncoderMap encoders e.name = some e) ∧
    (∀ (id : Str) (encoders : List PasswordEncoder),
       id ∈ encoders.map (fun e => e.name) →
       ∃ e, buildEncoderMap encoders id = some e) := by
  refine ⟨?_, ?_, ?_, ?_, ?_, ?_⟩
  · intro encoders
    unfold NewDelegatingPasswordEncoder
    rw [if_pos rfl]
  · intro id hid
    unfold NewDelegatingPasswordEncoder
    rw [if_neg hid]
    rfl
  · intro id encoders hid hne hmem
    rcases encoders with _ | ⟨e0, rest⟩
    · exact absurd rfl hne
    · unfold NewDelegatingPasswordEncoder
      rw [if_neg hid]
      rw [if_neg (by simp)]
      rw [(buildEncoderMap_eq_none_iff (e0 :: rest) id).mpr hmem]
  · intro id encoders e hid hsome
    rcases encoders with _ | ⟨e0, rest⟩
    · simp [buildEncoderMap] at hsome
    · unfold NewDelegatingPasswordEncoder
      rw [if_neg hid]
      rw [if_neg (by simp)]
      rw [hsome]
  · exact fun encoders hnodup => buildEncoderMap_name_self encoders hnodup
  · intro id encoders hmem
    rcases h : buildEncoderMap encoders id with _ | e
    · exact absurd hmem ((buildEncoderMap_eq_none_iff encoders id).mp h)
    · exact ⟨e, rfl⟩

def toyEncoders : List PasswordEncoder :=
  [toyEncoder (str "bcrypt"), toyEncoder (str "noop")]

theorem claim_constructor_validation_witness :
    NewDelegatingPasswordEncoder [] toyEncoders =
      .error (.fmtError (str "default encoder ID cannot be empty")) ∧
    NewDelegatingPasswordEncoder (str "bcrypt") [] =
      .error (.fmtError (str "at least one encoder must be provided")) ∧
    NewDelegatingPasswordEncoder (str "argon2") toyEncoders =
      .error (.fmtError (str "default encoder '" ++ str "argon2" ++
        str "' not found in provided encoders")) ∧
    NewDelegatingPasswordEncoder (str "bcrypt") toyEncoders =
      .ok ⟨toyEncoder (str "bcrypt"), str "bcrypt", buildEncoderMap toyEncoders⟩ ∧
    buildEncoderMap toyEncoders (toyEncoder (str "noop")).name =
      some (toyEncoder (str "noop")) ∧
    ∃ e, buildEncoderMap toyEncoders (str "noop") = some e := by
  refine ⟨?_, ?_, ?_, ?_, ?_, ?_⟩
  · exact claim_constructor_validation.1 toyEncoders
  · exact claim_constructor_validation.2.1 (str "bcrypt") (by decide)
  · exact claim_constructor_validation.2.2.1 (str "argon2") toyEncoders
      (by decide) (by simp [toyEncoders]) (by decide)
  · exact claim_constructor_validation.2.2.2.1 (str "bcrypt") toyEncoders
      (toyEncoder (str "bcrypt")) (by decide) rfl
  · exact claim_constructor_validation.2.2.2.2.1 toyEncoders (by decide)
      (toyEncoder (str "noop")) (by simp [toyEncoders])
  · exact claim_constructor_validation.2.2.2.2.2 (str "noop") toyEncoders (by decide)

theorem pbkdf2Verify_not_three (key : PBKDF2Key) (p : PBKDF2PasswordEncoder)
    (raw env : Str) (h : (splitDollar env).length ≠ 3) :
    pbkdf2Verify key p raw env =
      .error (.fmtError (str "invalid encoded password format")) := by
  unfold pbkdf2Verify
  rcases hsp : splitDollar env with _ | ⟨a, _ | ⟨b, _ | ⟨c, _ | ⟨d, t⟩⟩⟩⟩
  · rfl
  · rfl
  · rfl
  · exact absurd (by rw [hsp]; rfl) h
  · rfl

theorem argon2Verify_not_three (idKey : Argon2Key) (a0 : Argon2PasswordEncoder)
    (raw env : Str) (h : (splitDollar env).length ≠ 3) :
    argon2Verify idKey a0 raw env =
      .error (.fmtError (str "invalid encoded password format")) := by
  unfold argon2Verify
  rcases hsp : splitDollar env with _ | ⟨a, _ | ⟨b, _ | ⟨c, _ | ⟨d, t⟩⟩⟩⟩
  · rfl
  · rfl
  · rfl
  · exact absurd (by rw [hsp]; rfl) h
  · rfl

theorem scryptVerify_not_three (key : ScryptKey) (s : ScryptPasswordEncoder)
    (raw env : Str) (h : (splitDollar env).length ≠ 3) :
    scryptVerify key s raw env =
      .error (.fmtError (str "invalid encoded password format")) := by
  unfold scryptVerify
  rcases hsp : splitDollar env with _ | ⟨a, _ | ⟨b, _ | ⟨c, _ | ⟨d, t⟩⟩⟩⟩
  · rfl
  · rfl
  · rfl
  · exact absurd (by rw [hsp]; rfl) h
  · rfl

/-- C7 counterexample: on `"invalid-format"` the PBKDF2 `Verify` does fail,
but with a fresh `fmt.Errorf` value — not with the exported
`ErrInvalidFormat` sentinel the claim calls "a stable, comparable error
value" (only the delegating layer returns that sentinel; the composite
schemes build a new error with `fmt.Errorf`, which is never identical to
the sentinel variable). -/
theorem claim_composite_invalid_format_counterexample :
    pbkdf2Verify toyPBKDF2Key toyPBKDF2Cfg (str "password") (str "invalid-format") =
      .error (.fmtError (str "invalid encoded password format")) ∧
    PFError.fmtError (str "invalid encoded password format") ≠
      PFError.errInvalidFormat := by
  exact ⟨rfl, by decide⟩

/-- C7 amended: for every composite scheme's `Verify` and every envelope
that does not split on `'$'` into exactly 3 segments — in particular
`"invalid-format"` and the 2-segment
`"iterations=1000,keyLen=32,hashFunc=sha256$c2FsdA=="` — `Verify` returns
a non-nil invalid-format error and no match result; the error is the
fresh `fmt.Errorf("invalid encoded password format")` value, not the
shared `ErrInvalidFormat` sentinel. -/
theorem claim_composite_invalid_format_amended :
    (∀ (key : PBKDF2Key) (p : PBKDF2PasswordEncoder) (raw env : Str),
       (splitDollar env).length ≠ 3 →
       pbkdf2Verify key p raw env =
         .error (.fmtError (str "invalid encoded password format"))) ∧
    (∀ (idKey : Argon2Key) (a : Argon2PasswordEncoder) (raw env : Str),
       (splitDollar env).length ≠ 3 →
       argon2Verify idKey a raw env =
         .error (.fmtError (str "invalid encoded password format"))) ∧
    (∀ (key : ScryptKey) (s : ScryptPasswordEncoder) (raw env : Str),
       (splitDollar env).length ≠ 3 →
       scryptVerify key s raw env =
         .error (.fmtError (str "invalid encoded password format"))) ∧
    (∀ (key : PBKDF2Key) (p : PBKDF2PasswordEncoder),
       pbkdf2Verify key p (str "password") (str "invalid-format") =
         .error (.fmtError (str "invalid encoded password format")) ∧
       pbkdf2Verify key p (str "password")
         (str "iterations=1000,keyLen=32,hashFunc=sha256$c2FsdA==") =
         .error (.fmtError (str "invalid encoded password format"))) ∧
    (∀ (idKey : Argon2Key) (a : Argon2PasswordEncoder),
       argon2Verify idKey a (str "password") (str "invalid-format") =
         .error (.fmtError (str "invalid encoded password format")) ∧
       argon2Verify idKey a (str "password")
         (str "iterations=1000,keyLen=32,hashFunc=sha256$c2FsdA==") =
         .error (.fmtError (str "invalid encoded password format"))) ∧
    (∀ (key : ScryptKey) (s : ScryptPasswordEncoder),
       scryptVerify key s (str "password") (str "invalid-format") =
         .error (.fmtError (str "invalid encoded password format")) ∧
       scryptVerify key s (str "password")
         (str "iterations=1000,keyLen=32,hashFunc=sha256$c2FsdA==") =
         .error (.fmtError (str "invalid encoded password format"))) := by
  refine ⟨?_, ?_, ?_, ?_, ?_, ?_⟩
  · exact pbkdf2Verify_not_three
  · exact argon2Verify_not_three
  · exact scryptVerify_not_three
  · exact fun key p => ⟨rfl, rfl⟩
  · exact fun idKey a => ⟨rfl, rfl⟩
  · exact fun key s => ⟨rfl, rfl⟩

theorem claim_composite_invalid_format_amended_witness :
    pbkdf2Verify toyPBKDF2Key toyPBKDF2Cfg (str "password") (str "invalid-format") =
      .error (.fmtError (str "invalid encoded password format")) ∧
    argon2Verify toyArgon2Key NewArgon2PasswordEncoder (str "password")
      (str "invalid-format") =
      .error (.fmtError (str "invalid encoded password format")) ∧
    scryptVerify toyScryptKey NewScryptPasswordEncoder (str "password")
      (str "iterations=1000,keyLen=32,hashFunc=sha256$c2FsdA==") =
      .error (.fmtError (str "invalid encoded password format")) := by
  refine ⟨?_, ?_, ?_⟩
  · exact claim_composite_invalid_format_amended.1 toyPBKDF2Key toyPBKDF2Cfg
      (str "password") (str "invalid-format") (by decide)
  · exact claim_composite_invalid_format_amended.2.1 toyArgon2Key
      NewArgon2PasswordEncoder (str "password") (str "invalid-format") (by decide)
  · exact claim_composite_invalid_format_amended.2.2.1 toyScryptKey
      NewScryptPasswordEncoder (str "password")
      (str "iterations=1000,keyLen=32,hashFunc=sha256$c2FsdA==") (by decide)
